import Mathlib

/-!
# Scripted-question Telegram bot: conversation state machine

A shallow embedding of `src/index.js`.  The single mutable `User` object of
`launchBot` becomes a value of the structure `User`; the two handlers
registered on the bot (`bot.start` and `bot.on("text")`) become pure functions
from the object before the handler to the object after it, together with the
ordered list of calls made to the outside world (Telegram sends, the chat
completion request, the database upsert).

Modelling decisions:

* `currentQuestionIndex` starts at `0` and is only ever changed by `++`, so it is
  a natural number.  The comparisons against `questions.length - 1` are made in
  `Int`, because for an empty question list JavaScript computes `-1`.
* One inbound event is processed to completion before the next one, as the
  handlers are written; the order of the effects is the order in which the
  handler issues the calls.
* The outcome of the HTTP request to the completion API is an input of the text
  event: `some r` when the request returns the reply text `r`, `none` when the
  awaited request rejects.  A rejected `await` throws out of the handler, so the
  statements after it are not executed; the mutations made before it stay.
* The outcome of the awaited Telegram send of the text handler (line 110 or line 115)
  is likewise an input of the text event: `true` when the send resolves, `false` when
  it rejects, which ends the handler before the save.  The sends of the start handler
  are not awaited, so their outcome cannot end that handler.  The save is the last
  statement of the text handler, so its outcome changes nothing that follows.
-/

namespace TelegramBot

/-- The values of the `role` field that the program writes. -/
inductive Role
  | system
  | user
  | assistant
deriving DecidableEq

/-- One entry of `User.conversation`: `{ role, content }`. -/
structure Turn where
  role : Role
  content : String
deriving DecidableEq

/-- The type of `ctx.chat.id`. -/
abbrev ChatId := Int

/-- The object built by `setUser` (lines 10-28). -/
structure User where
  botToken : Option String
  mongoUri : Option String
  openAiApiKey : Option String
  chatId : Option ChatId
  conversation : List Turn
  userInput : Option String
  chatGptResponse : Option String
  questions : List String
  currentQuestionIndex : Nat
deriving DecidableEq

/-- The three values read from `process.env` by `setUser`. -/
structure Env where
  botToken : Option String
  mongoUri : Option String
  openAiApiKey : Option String
deriving DecidableEq

/-- A call made by a handler to an external collaborator. -/
inductive Effect
  | sendMessage (chatId : ChatId) (text : String)
  | chatCompletion (apiKey : Option String) (messages : List Turn)
  | saveConversation (chatId : ChatId) (conversation : List Turn)
deriving DecidableEq

/-- The question list written in `setUser` (lines 19-24). -/
def scriptedQuestions : List String :=
  [ "Are you looking for a health insurance plan?",
    "What is your family size?",
    "What is your household income?",
    "What is your gender?" ]

/-- The object of `setUser` with the literal question list replaced by `questions`. -/
def setUserWith (env : Env) (questions : List String) : User :=
  { botToken := env.botToken
    mongoUri := env.mongoUri
    openAiApiKey := env.openAiApiKey
    chatId := none
    conversation := []
    userInput := none
    chatGptResponse := none
    questions := questions
    currentQuestionIndex := 0 }

/-- The function `setUser` (lines 10-28). -/
def setUser (env : Env) : User :=
  setUserWith env scriptedQuestions

/-- The text of the system turn pushed by the start handler (line 98). -/
def startTurn : Turn :=
  ⟨Role.system, "Start health insurance inquiry."⟩

/-- The greeting sent by the start handler (line 99). -/
def greeting : String := "Hello! Let's begin."

/-- The replacement content used by `interactWithChatGpt` when `userInput` is falsy. -/
def fallbackPrompt : String := "Generate the next relevant question."

/-- The expression `userInput || "Generate the next relevant question."` (line 58):
`null` and the empty string are falsy. -/
def promptContent : Option String → String
  | none => fallbackPrompt
  | some s => if s = "" then fallbackPrompt else s

/-- The `messages` array of the request built by `interactWithChatGpt` (lines 56-59):
the conversation followed by one more user turn. -/
def requestMessages (userInput : Option String) (conversation : List Turn) : List Turn :=
  conversation ++ [⟨Role.user, promptContent userInput⟩]

/-- The request issued by `interactWithChatGpt` (lines 51-66), called with the whole
`User` object. -/
def interactWithChatGpt (u : User) : List Effect :=
  [Effect.chatCompletion u.openAiApiKey (requestMessages u.userInput u.conversation)]

/-- The function `saveConversation` (lines 68-74). -/
def saveConversation (chatId : ChatId) (conversation : List Turn) : List Effect :=
  [Effect.saveConversation chatId conversation]

/-- The function `sendNextQuestion` (lines 76-80). -/
def sendNextQuestion (chatId : ChatId) (questions : List String)
    (currentQuestionIndex : Nat) : List Effect :=
  if h : currentQuestionIndex < questions.length then
    [Effect.sendMessage chatId (questions.get ⟨currentQuestionIndex, h⟩)]
  else []

/-- The function `sendGeneratedQuestion` (lines 82-84). -/
def sendGeneratedQuestion (chatId : ChatId) (chatGptResponse : String) : List Effect :=
  [Effect.sendMessage chatId chatGptResponse]

/-- The handler passed to `bot.start` (lines 96-101). -/
def onStart (u : User) (chat : ChatId) : User × List Effect :=
  let u1 := { u with chatId := some chat }
  let u2 := { u1 with conversation := u1.conversation ++ [startTurn] }
  (u2, [Effect.sendMessage chat greeting]
        ++ sendNextQuestion chat u2.questions u2.currentQuestionIndex)

/-- The handler passed to `bot.on("text")` (lines 103-120).  `reply` is the outcome of
the awaited completion request (line 113), consulted only in the `else if` branch;
`delivered` is the outcome of the awaited Telegram send (line 110 or line 115),
consulted only when a send is made.  A rejected `await` ends the handler there. -/
def onText (u : User) (chat : ChatId) (text : String) (reply : Option String)
    (delivered : Bool) : User × List Effect :=
  let u1 := { u with chatId := some chat }
  let u2 := { u1 with userInput := some text }
  let u3 := { u2 with conversation := u2.conversation ++ [⟨Role.user, text⟩] }
  if (u3.currentQuestionIndex : Int) < (u3.questions.length : Int) - 1 then
    let u4 := { u3 with currentQuestionIndex := u3.currentQuestionIndex + 1 }
    let sent := sendNextQuestion chat u4.questions u4.currentQuestionIndex
    if sent ≠ [] ∧ delivered = false then
      (u4, sent)
    else
      (u4, sent ++ saveConversation chat u4.conversation)
  else if (u3.currentQuestionIndex : Int) = (u3.questions.length : Int) - 1 then
    match reply with
    | none => (u3, interactWithChatGpt u3)
    | some r =>
      let u4 := { u3 with chatGptResponse := some r }
      let u5 := { u4 with conversation := u4.conversation ++ [⟨Role.assistant, r⟩] }
      if delivered = false then
        (u5, interactWithChatGpt u3 ++ sendGeneratedQuestion chat r)
      else
        (u5, interactWithChatGpt u3 ++ sendGeneratedQuestion chat r
              ++ saveConversation chat u5.conversation)
  else
    (u3, saveConversation chat u3.conversation)

/-- An inbound update delivered by the transport. -/
inductive Event
  | start (chatId : ChatId)
  | text (chatId : ChatId) (text : String) (reply : Option String) (delivered : Bool)
deriving DecidableEq

/-- The chat an update belongs to. -/
def Event.chat : Event → ChatId
  | Event.start c => c
  | Event.text c _ _ _ => c

/-- Dispatch of one update to its handler. -/
def handle (u : User) : Event → User × List Effect
  | Event.start c => onStart u c
  | Event.text c t r d => onText u c t r d

/-- Processing of a sequence of updates on the shared object, with the effects of all
handlers in order. -/
def run (u : User) : List Event → User × List Effect
  | [] => (u, [])
  | e :: es =>
    let r1 := handle u e
    let r2 := run r1.1 es
    (r2.1, r1.2 ++ r2.2)

/-- The texts passed to `bot.telegram.sendMessage`, in the order the calls are issued,
with their chat. -/
def sends : List Effect → List (ChatId × String)
  | [] => []
  | Effect.sendMessage c t :: es => (c, t) :: sends es
  | _ :: es => sends es

/-- The texts sent to one chat, in order. -/
def sendsTo (chat : ChatId) (es : List Effect) : List String :=
  ((sends es).filter (fun p => p.1 = chat)).map (fun p => p.2)

/-- The `messages` arrays of the completion requests, in order. -/
def modelCalls : List Effect → List (List Turn)
  | [] => []
  | Effect.chatCompletion _ m :: es => m :: modelCalls es
  | _ :: es => modelCalls es

/-- The arguments of the calls to `saveConversation`, in order. -/
def saves : List Effect → List (ChatId × List Turn)
  | [] => []
  | Effect.saveConversation c t :: es => (c, t) :: saves es
  | _ :: es => saves es

/-- The transcripts stored under one chat id, in order. -/
def savedUnder (chat : ChatId) (es : List Effect) : List (List Turn) :=
  ((saves es).filter (fun p => p.1 = chat)).map (fun p => p.2)

/-- The updates of one chat, in order. -/
def eventsOf (chat : ChatId) (es : List Event) : List Event :=
  es.filter (fun e => e.chat = chat)

/-- The user turns written for a list of answers. -/
def userTurns (answers : List String) : List Turn :=
  answers.map (fun a => ⟨Role.user, a⟩)

/-- Text updates of one chat for a list of answers, each paired with the outcome the
completion request and the Telegram send would have. -/
def textEvents (chat : ChatId) (answers : List (String × Option String × Bool)) :
    List Event :=
  answers.map (fun a => Event.text chat a.1 a.2.1 a.2.2)

/-! ## Auxiliary facts about the handlers -/

theorem onText_advance (u : User) (c : ChatId) (t : String) (r : Option String) (d : Bool)
    (h : (u.currentQuestionIndex : Int) < (u.questions.length : Int) - 1) :
    onText u c t r d =
      ({ u with
          chatId := some c
          userInput := some t
          conversation := u.conversation ++ [⟨Role.user, t⟩]
          currentQuestionIndex := u.currentQuestionIndex + 1 },
        sendNextQuestion c u.questions (u.currentQuestionIndex + 1)
          ++ (if d = true then saveConversation c (u.conversation ++ [⟨Role.user, t⟩])
              else [])) := by
  have hlt : u.currentQuestionIndex + 1 < u.questions.length := by omega
  cases d <;> simp [onText, h, sendNextQuestion, hlt]

theorem onText_last_reply (u : User) (c : ChatId) (t r : String) (d : Bool)
    (h : (u.currentQuestionIndex : Int) = (u.questions.length : Int) - 1) :
    onText u c t (some r) d =
      ({ u with
          chatId := some c
          userInput := some t
          chatGptResponse := some r
          conversation := u.conversation ++ [⟨Role.user, t⟩] ++ [⟨Role.assistant, r⟩] },
        [Effect.chatCompletion u.openAiApiKey
            (requestMessages (some t) (u.conversation ++ [⟨Role.user, t⟩])),
          Effect.sendMessage c r]
          ++ (if d = true then
                [Effect.saveConversation c
                  (u.conversation ++ [⟨Role.user, t⟩] ++ [⟨Role.assistant, r⟩])]
              else [])) := by
  cases d <;> simp [onText, h, interactWithChatGpt, sendGeneratedQuestion, saveConversation]

theorem onText_last_failure (u : User) (c : ChatId) (t : String) (d : Bool)
    (h : (u.currentQuestionIndex : Int) = (u.questions.length : Int) - 1) :
    onText u c t none d =
      ({ u with
          chatId := some c
          userInput := some t
          conversation := u.conversation ++ [⟨Role.user, t⟩] },
        [Effect.chatCompletion u.openAiApiKey
            (requestMessages (some t) (u.conversation ++ [⟨Role.user, t⟩]))]) := by
  simp [onText, h, interactWithChatGpt]

theorem onText_past (u : User) (c : ChatId) (t : String) (r : Option String) (d : Bool)
    (h : (u.questions.length : Int) - 1 < (u.currentQuestionIndex : Int)) :
    onText u c t r d =
      ({ u with
          chatId := some c
          userInput := some t
          conversation := u.conversation ++ [⟨Role.user, t⟩] },
        [Effect.saveConversation c (u.conversation ++ [⟨Role.user, t⟩])]) := by
  have h1 : ¬ (u.currentQuestionIndex : Int) < (u.questions.length : Int) - 1 := by omega
  have h2 : ¬ (u.currentQuestionIndex : Int) = (u.questions.length : Int) - 1 := by omega
  simp [onText, h1, h2, saveConversation]

theorem sends_append (xs ys : List Effect) : sends (xs ++ ys) = sends xs ++ sends ys := by
  induction xs with
  | nil => rfl
  | cons x xs ih => cases x <;> simp [sends, ih]

theorem modelCalls_append (xs ys : List Effect) :
    modelCalls (xs ++ ys) = modelCalls xs ++ modelCalls ys := by
  induction xs with
  | nil => rfl
  | cons x xs ih => cases x <;> simp [modelCalls, ih]

theorem saves_append (xs ys : List Effect) : saves (xs ++ ys) = saves xs ++ saves ys := by
  induction xs with
  | nil => rfl
  | cons x xs ih => cases x <;> simp [saves, ih]

theorem run_append (u : User) (es fs : List Event) :
    run u (es ++ fs) = ((run (run u es).1 fs).1, (run u es).2 ++ (run (run u es).1 fs).2) := by
  induction es generalizing u with
  | nil => simp [run]
  | cons e es ih => simp [run, ih, List.append_assoc]

/-- One handler keeps the question list and the API key, never lowers the cursor, and
raises it only while it is below `questions.length - 1`. -/
theorem handle_fields (u : User) (e : Event) :
    (handle u e).1.questions = u.questions
      ∧ (handle u e).1.openAiApiKey = u.openAiApiKey
      ∧ u.currentQuestionIndex ≤ (handle u e).1.currentQuestionIndex
      ∧ ((handle u e).1.currentQuestionIndex = u.currentQuestionIndex
          ∨ ((handle u e).1.currentQuestionIndex = u.currentQuestionIndex + 1
              ∧ u.currentQuestionIndex + 1 < u.questions.length)) := by
  cases e with
  | start c => simp [handle, onStart]
  | text c t r d =>
    rcases lt_trichotomy (u.currentQuestionIndex : Int) ((u.questions.length : Int) - 1)
      with h | h | h
    · have hlt : u.currentQuestionIndex + 1 < u.questions.length := by omega
      simp [handle, onText_advance u c t r d h, hlt]
    · cases r with
      | none => simp [handle, onText_last_failure u c t d h]
      | some r => simp [handle, onText_last_reply u c t r d h]
    · simp [handle, onText_past u c t r d h]

theorem handle_conversation_extends (u : User) (e : Event) :
    u.conversation <+: (handle u e).1.conversation := by
  cases e with
  | start c => exact ⟨[startTurn], by simp [handle, onStart]⟩
  | text c t r d =>
    rcases lt_trichotomy (u.currentQuestionIndex : Int) ((u.questions.length : Int) - 1)
      with h | h | h
    · exact ⟨[⟨Role.user, t⟩], by simp [handle, onText_advance u c t r d h]⟩
    · cases r with
      | none => exact ⟨[⟨Role.user, t⟩], by simp [handle, onText_last_failure u c t d h]⟩
      | some r =>
        exact ⟨[⟨Role.user, t⟩, ⟨Role.assistant, r⟩],
          by simp [handle, onText_last_reply u c t r d h]⟩
    · exact ⟨[⟨Role.user, t⟩], by simp [handle, onText_past u c t r d h]⟩

theorem run_fields (u : User) (es : List Event) :
    (run u es).1.questions = u.questions
      ∧ (run u es).1.openAiApiKey = u.openAiApiKey
      ∧ u.currentQuestionIndex ≤ (run u es).1.currentQuestionIndex := by
  induction es generalizing u with
  | nil => simp [run]
  | cons e es ih =>
    obtain ⟨hq, hk, hle, _⟩ := handle_fields u e
    obtain ⟨hq2, hk2, hle2⟩ := ih (handle u e).1
    refine ⟨?_, ?_, ?_⟩
    · simpa [run, hq] using hq2
    · simpa [run, hk] using hk2
    · simpa [run] using le_trans hle hle2

theorem run_index_le (u : User) (es : List Event)
    (h : u.currentQuestionIndex ≤ u.questions.length) :
    (run u es).1.currentQuestionIndex ≤ u.questions.length := by
  induction es generalizing u with
  | nil => simpa [run] using h
  | cons e es ih =>
    obtain ⟨hq, _, _, hstep⟩ := handle_fields u e
    have h1 : (handle u e).1.currentQuestionIndex ≤ (handle u e).1.questions.length := by
      rw [hq]; rcases hstep with hs | ⟨hs, hlt⟩ <;> omega
    have h2 := ih (handle u e).1 h1
    rw [hq] at h2
    simpa [run] using h2

theorem run_index_lt (u : User) (es : List Event)
    (h : u.currentQuestionIndex < u.questions.length) :
    (run u es).1.currentQuestionIndex < u.questions.length := by
  induction es generalizing u with
  | nil => simpa [run] using h
  | cons e es ih =>
    obtain ⟨hq, _, _, hstep⟩ := handle_fields u e
    have h1 : (handle u e).1.currentQuestionIndex < (handle u e).1.questions.length := by
      rw [hq]; rcases hstep with hs | ⟨hs, hlt⟩ <;> omega
    have h2 := ih (handle u e).1 h1
    rw [hq] at h2
    simpa [run] using h2

theorem run_conversation_extends (u : User) (es : List Event) :
    u.conversation <+: (run u es).1.conversation := by
  induction es generalizing u with
  | nil => simp [run]
  | cons e es ih =>
    exact List.IsPrefix.trans (handle_conversation_extends u e) (by simpa [run] using ih (handle u e).1)

/-- The calls made by the text handler while the cursor is below the last question. -/
theorem onText_advance_calls (u : User) (c : ChatId) (t : String) (o : Option String)
    (d : Bool) (hlt : u.currentQuestionIndex + 1 < u.questions.length) :
    sends (onText u c t o d).2 = [(c, u.questions[u.currentQuestionIndex + 1])]
      ∧ modelCalls (onText u c t o d).2 = [] := by
  have h : (u.currentQuestionIndex : Int) < (u.questions.length : Int) - 1 := by omega
  rw [onText_advance u c t o d h]
  cases d <;> simp [sendNextQuestion, hlt, saveConversation, sends, modelCalls]

/-- Answers given while the cursor stays below the last question: each one advances the
cursor, adds its user turn, sends the next question and reaches no completion request. -/
theorem run_textEvents_scripted (answers : List (String × Option String × Bool))
    (u : User) (c : ChatId)
    (h : u.currentQuestionIndex + answers.length < u.questions.length) :
    (run u (textEvents c answers)).1.currentQuestionIndex
        = u.currentQuestionIndex + answers.length
      ∧ (run u (textEvents c answers)).1.conversation
          = u.conversation ++ userTurns (answers.map Prod.fst)
      ∧ sends (run u (textEvents c answers)).2
          = ((u.questions.drop (u.currentQuestionIndex + 1)).take answers.length).map
              (fun q => (c, q))
      ∧ modelCalls (run u (textEvents c answers)).2 = [] := by
  induction answers generalizing u with
  | nil => simp [textEvents, run, userTurns, sends, modelCalls]
  | cons a rest ih =>
    have hlen : (a :: rest).length = rest.length + 1 := rfl
    rw [hlen] at h
    have hadv : (u.currentQuestionIndex : Int) < (u.questions.length : Int) - 1 := by omega
    have hlt : u.currentQuestionIndex + 1 < u.questions.length := by omega
    have hstep := onText_advance u c a.1 a.2.1 a.2.2 hadv
    have hrun : run u (textEvents c (a :: rest))
        = ((run (onText u c a.1 a.2.1 a.2.2).1 (textEvents c rest)).1,
            (onText u c a.1 a.2.1 a.2.2).2
              ++ (run (onText u c a.1 a.2.1 a.2.2).1 (textEvents c rest)).2) := by
      simp [textEvents, run, handle]
    have hidx : (onText u c a.1 a.2.1 a.2.2).1.currentQuestionIndex
        = u.currentQuestionIndex + 1 := by rw [hstep]
    have hqs : (onText u c a.1 a.2.1 a.2.2).1.questions = u.questions := by rw [hstep]
    have hconv : (onText u c a.1 a.2.1 a.2.2).1.conversation
        = u.conversation ++ [⟨Role.user, a.1⟩] := by rw [hstep]
    obtain ⟨hs, hm⟩ := onText_advance_calls u c a.1 a.2.1 a.2.2 hlt
    obtain ⟨i1, i2, i3, i4⟩ := ih (onText u c a.1 a.2.1 a.2.2).1 (by rw [hidx, hqs]; omega)
    rw [hrun]
    refine ⟨?_, ?_, ?_, ?_⟩
    · simp only [i1, hidx, hlen]; omega
    · simp only [i2, hconv, userTurns, List.map_cons, List.append_assoc, List.singleton_append]
    · simp only [sends_append, i3, hs, hidx, hqs, hlen]
      rw [List.drop_eq_getElem_cons hlt]
      simp only [List.take_succ_cons, List.map_cons, List.cons_append, List.nil_append]
    · simp only [modelCalls_append, i4, hm, List.append_nil]

/-- The whole script from the object of `setUser`: a start, one answer per question
before the last, and a last answer whose completion request returns `r`. -/
theorem run_script (env : Env) (qs : List String) (c : ChatId)
    (answers : List (String × Option String × Bool)) (t r : String) (d : Bool)
    (hlen : answers.length + 1 = qs.length) :
    modelCalls (run (setUserWith env qs) (Event.start c :: textEvents c answers)).2 = []
      ∧ sends (run (setUserWith env qs)
            (Event.start c :: textEvents c answers ++ [Event.text c t (some r) d])).2
          = (c, greeting) :: qs.map (fun q => (c, q)) ++ [(c, r)]
      ∧ (run (setUserWith env qs)
            (Event.start c :: textEvents c answers ++ [Event.text c t (some r) d])).1.conversation
          = startTurn :: userTurns (answers.map Prod.fst ++ [t]) ++ [⟨Role.assistant, r⟩]
      ∧ modelCalls (run (setUserWith env qs)
            (Event.start c :: textEvents c answers ++ [Event.text c t (some r) d])).2
          = [startTurn :: userTurns (answers.map Prod.fst ++ [t])
              ++ [⟨Role.user, promptContent (some t)⟩]] := by
  obtain ⟨q0, qs', rfl⟩ : ∃ q0 qs', qs = q0 :: qs' := by
    cases qs with
    | nil => simp at hlen
    | cons q0 qs' => exact ⟨q0, qs', rfl⟩
  have hstart : onStart (setUserWith env (q0 :: qs')) c
      = ({ setUserWith env (q0 :: qs') with chatId := some c, conversation := [startTurn] },
          [Effect.sendMessage c greeting, Effect.sendMessage c q0]) := by
    simp [onStart, setUserWith, sendNextQuestion]
  have hrun : ∀ X : List Event, run (setUserWith env (q0 :: qs')) (Event.start c :: X)
      = ((run (onStart (setUserWith env (q0 :: qs')) c).1 X).1,
          (onStart (setUserWith env (q0 :: qs')) c).2
            ++ (run (onStart (setUserWith env (q0 :: qs')) c).1 X).2) := by
    intro X; simp [run, handle]
  have h1idx : (onStart (setUserWith env (q0 :: qs')) c).1.currentQuestionIndex = 0 := by
    rw [hstart]; rfl
  have h1qs : (onStart (setUserWith env (q0 :: qs')) c).1.questions = q0 :: qs' := by
    rw [hstart]; rfl
  have h1conv : (onStart (setUserWith env (q0 :: qs')) c).1.conversation = [startTurn] := by
    rw [hstart]
  have h1eff : (onStart (setUserWith env (q0 :: qs')) c).2
      = [Effect.sendMessage c greeting, Effect.sendMessage c q0] := by rw [hstart]
  have hlen' : answers.length = qs'.length := by simpa using hlen
  obtain ⟨i1, i2, i3, i4⟩ := run_textEvents_scripted answers
    (onStart (setUserWith env (q0 :: qs')) c).1 c (by rw [h1idx, h1qs]; simp [hlen'])
  obtain ⟨f1, _, _⟩ := run_fields (onStart (setUserWith env (q0 :: qs')) c).1
    (textEvents c answers)
  rw [h1idx, zero_add] at i1
  rw [h1conv] at i2
  rw [h1idx, h1qs] at i3
  rw [h1qs] at f1
  have hlast : ((run (onStart (setUserWith env (q0 :: qs')) c).1
        (textEvents c answers)).1.currentQuestionIndex : Int)
      = (((run (onStart (setUserWith env (q0 :: qs')) c).1
          (textEvents c answers)).1.questions.length : Nat) : Int) - 1 := by
    rw [i1, f1]; simp [hlen']
  have hreply := onText_last_reply
    (run (onStart (setUserWith env (q0 :: qs')) c).1 (textEvents c answers)).1 c t r d hlast
  have hsends3 : sends (run (onStart (setUserWith env (q0 :: qs')) c).1
      (textEvents c answers)).2 = qs'.map (fun q => (c, q)) := by
    rw [i3, hlen']; simp
  refine ⟨?_, ?_, ?_, ?_⟩
  · rw [hrun, h1eff, modelCalls_append, i4]
    simp [modelCalls]
  · rw [List.cons_append, hrun, run_append, h1eff]
    simp only [run, handle, hreply, List.append_nil]
    cases d <;> simp [sends_append, hsends3, sends]
  · rw [List.cons_append, hrun, run_append]
    simp only [run, handle, hreply, i2]
    simp [userTurns]
  · rw [List.cons_append, hrun, run_append, h1eff]
    simp only [run, handle, hreply, List.append_nil, requestMessages, i2]
    cases d <;> simp [modelCalls_append, i4, modelCalls, userTurns]

/-- Once the cursor is at the last question, no sequence of events moves it. -/
theorem run_index_stays (u : User) (es : List Event)
    (h : (u.currentQuestionIndex : Int) = (u.questions.length : Int) - 1) :
    (run u es).1.currentQuestionIndex = u.currentQuestionIndex := by
  have hlt : u.currentQuestionIndex < u.questions.length := by omega
  have h1 := run_index_lt u es hlt
  have h2 := (run_fields u es).2.2
  omega

/-! ## The cursor and the transcript -/

/-- C1: from a state whose `currentQuestionIndex` is between `0` and
`questions.length`, either handler (start, or text with any outcome of the completion
request and of the awaited send) leaves `currentQuestionIndex` at least as large as before and at most
`questions.length`, over the same question list; and every state reached from the
object of `setUser` by any sequence of events has
`0 <= currentQuestionIndex <= questions.length`. -/
theorem currentQuestionIndex_monotone_bounded (u : User) (e : Event)
    (h0 : (0 : Int) ≤ (u.currentQuestionIndex : Int))
    (h : u.currentQuestionIndex ≤ u.questions.length)
    (env : Env) (qs : List String) (es : List Event) :
    (u.currentQuestionIndex ≤ (handle u e).1.currentQuestionIndex
        ∧ (handle u e).1.currentQuestionIndex ≤ (handle u e).1.questions.length
        ∧ (handle u e).1.questions = u.questions)
      ∧ ((run (setUserWith env qs) es).1.questions = qs
        ∧ (0 : Int) ≤ ((run (setUserWith env qs) es).1.currentQuestionIndex : Int)
        ∧ (run (setUserWith env qs) es).1.currentQuestionIndex ≤ qs.length) := by
  have _ := h0
  obtain ⟨hq, _, hle, hstep⟩ := handle_fields u e
  refine ⟨⟨hle, ?_, hq⟩, ?_, ?_, ?_⟩
  · rw [hq]; rcases hstep with hs | ⟨hs, hlt⟩ <;> omega
  · exact (run_fields (setUserWith env qs) es).1
  · exact Int.ofNat_nonneg _
  · exact run_index_le (setUserWith env qs) es (by simp [setUserWith])

theorem currentQuestionIndex_monotone_bounded_witness :
    ((setUser ⟨none, none, none⟩).currentQuestionIndex
        ≤ (handle (setUser ⟨none, none, none⟩) (Event.text 7 "yes" none true)).1.currentQuestionIndex
        ∧ (handle (setUser ⟨none, none, none⟩) (Event.text 7 "yes" none true)).1.currentQuestionIndex
            ≤ (handle (setUser ⟨none, none, none⟩)
                (Event.text 7 "yes" none true)).1.questions.length
        ∧ (handle (setUser ⟨none, none, none⟩) (Event.text 7 "yes" none true)).1.questions
            = (setUser ⟨none, none, none⟩).questions)
      ∧ ((run (setUserWith ⟨none, none, none⟩ ["Q0", "Q1"])
            [Event.start 7, Event.text 7 "foo" none true]).1.questions = ["Q0", "Q1"]
        ∧ (0 : Int) ≤ ((run (setUserWith ⟨none, none, none⟩ ["Q0", "Q1"])
            [Event.start 7, Event.text 7 "foo" none true]).1.currentQuestionIndex : Int)
        ∧ (run (setUserWith ⟨none, none, none⟩ ["Q0", "Q1"])
            [Event.start 7, Event.text 7 "foo" none true]).1.currentQuestionIndex
            ≤ ["Q0", "Q1"].length) :=
  currentQuestionIndex_monotone_bounded (setUser ⟨none, none, none⟩)
    (Event.text 7 "yes" none true) (by decide) (by decide) ⟨none, none, none⟩ ["Q0", "Q1"]
    [Event.start 7, Event.text 7 "foo" none true]

/-- C2: for every state and every event (start, or text whether the completion request
returns or rejects, and whether the awaited send resolves or rejects), the conversation before the handler is a prefix of the
conversation after it, so every turn already written keeps its position, role and
content; the same holds across any sequence of events. -/
theorem conversation_append_only (u : User) (e : Event) (es : List Event) :
    u.conversation <+: (handle u e).1.conversation
      ∧ (∀ (i : Nat) (turn : Turn), u.conversation[i]? = some turn →
          (handle u e).1.conversation[i]? = some turn)
      ∧ u.conversation <+: (run u es).1.conversation := by
  refine ⟨handle_conversation_extends u e, ?_, run_conversation_extends u es⟩
  intro i turn hi
  obtain ⟨added, hadd⟩ := handle_conversation_extends u e
  obtain ⟨hlt, _⟩ := List.getElem?_eq_some_iff.mp hi
  rw [← hadd, List.getElem?_append_left hlt]
  exact hi

/-! ## The text handler, branch by branch -/

/-- C3: when `currentQuestionIndex = i` with `i < questions.length - 1`, the text
handler appends exactly the turn `{role: user, content: t}`, sets
`currentQuestionIndex` to `i + 1`, sends exactly one message, `questions[i+1]`, to the
chat of the update, and makes no completion request; the call to `sendMessage` is
issued whatever its outcome. -/
theorem onText_scripted_question (u : User) (c : ChatId) (t : String) (o : Option String)
    (d : Bool)
    (h : (u.currentQuestionIndex : Int) < (u.questions.length : Int) - 1) :
    ∃ q, u.questions[u.currentQuestionIndex + 1]? = some q
      ∧ (onText u c t o d).1.conversation = u.conversation ++ [⟨Role.user, t⟩]
      ∧ (onText u c t o d).1.currentQuestionIndex = u.currentQuestionIndex + 1
      ∧ (onText u c t o d).1.questions = u.questions
      ∧ sends (onText u c t o d).2 = [(c, q)]
      ∧ modelCalls (onText u c t o d).2 = [] := by
  have hlt : u.currentQuestionIndex + 1 < u.questions.length := by omega
  refine ⟨u.questions[u.currentQuestionIndex + 1], ?_, ?_⟩
  · simp [hlt]
  · rw [onText_advance u c t o d h]
    cases d <;> simp [sendNextQuestion, hlt, saveConversation, sends, modelCalls]

theorem onText_scripted_question_witness :
    ∃ q, (setUser ⟨none, none, none⟩).questions[
          (setUser ⟨none, none, none⟩).currentQuestionIndex + 1]? = some q
      ∧ (onText (setUser ⟨none, none, none⟩) 7 "yes" none true).1.conversation
          = (setUser ⟨none, none, none⟩).conversation ++ [⟨Role.user, "yes"⟩]
      ∧ (onText (setUser ⟨none, none, none⟩) 7 "yes" none true).1.currentQuestionIndex
          = (setUser ⟨none, none, none⟩).currentQuestionIndex + 1
      ∧ (onText (setUser ⟨none, none, none⟩) 7 "yes" none true).1.questions
          = (setUser ⟨none, none, none⟩).questions
      ∧ sends (onText (setUser ⟨none, none, none⟩) 7 "yes" none true).2 = [(7, q)]
      ∧ modelCalls (onText (setUser ⟨none, none, none⟩) 7 "yes" none true).2 = [] :=
  onText_scripted_question (setUser ⟨none, none, none⟩) 7 "yes" none true (by decide)

/-- C4: for a non-empty question list, when `currentQuestionIndex` is
`questions.length - 1` and the completion request returns `r`, the text handler makes
exactly one completion request, leaves the conversation equal to the previous one
followed by `{role: user, content: t}` and `{role: assistant, content: r}`, and sends
exactly one message, `r`, to the chat of the update. -/
theorem onText_model_reply (u : User) (c : ChatId) (t r : String) (d : Bool)
    (hne : u.questions ≠ [])
    (h : (u.currentQuestionIndex : Int) = (u.questions.length : Int) - 1) :
    (modelCalls (onText u c t (some r) d).2).length = 1
      ∧ (onText u c t (some r) d).1.conversation
          = u.conversation ++ [⟨Role.user, t⟩, ⟨Role.assistant, r⟩]
      ∧ sends (onText u c t (some r) d).2 = [(c, r)] := by
  have _ := hne
  rw [onText_last_reply u c t r d h]
  cases d <;> simp [sends, modelCalls]

theorem onText_model_reply_witness :
    (modelCalls (onText (setUserWith ⟨none, none, none⟩ ["Q0"]) 7 "bar" (some "r") true).2).length
        = 1
      ∧ (onText (setUserWith ⟨none, none, none⟩ ["Q0"]) 7 "bar" (some "r") true).1.conversation
          = (setUserWith ⟨none, none, none⟩ ["Q0"]).conversation
              ++ [⟨Role.user, "bar"⟩, ⟨Role.assistant, "r"⟩]
      ∧ sends (onText (setUserWith ⟨none, none, none⟩ ["Q0"]) 7 "bar" (some "r") true).2
          = [(7, "r")] :=
  onText_model_reply (setUserWith ⟨none, none, none⟩ ["Q0"]) 7 "bar" "r" true (by decide)
    (by decide)

/-- C7: when `currentQuestionIndex` is `questions.length - 1` and the completion
request rejects, the object after the text handler has the previous conversation
followed by exactly `{role: user, content: t}`, the same `currentQuestionIndex`, and
no message has been sent. -/
theorem onText_model_failure (u : User) (c : ChatId) (t : String) (d : Bool)
    (h : (u.currentQuestionIndex : Int) = (u.questions.length : Int) - 1) :
    (onText u c t none d).1.conversation = u.conversation ++ [⟨Role.user, t⟩]
      ∧ (onText u c t none d).1.currentQuestionIndex = u.currentQuestionIndex
      ∧ sends (onText u c t none d).2 = [] := by
  simp [onText_last_failure u c t d h, sends]

theorem onText_model_failure_witness :
    (onText (setUserWith ⟨none, none, none⟩ ["Q0"]) 7 "bar" none true).1.conversation
        = (setUserWith ⟨none, none, none⟩ ["Q0"]).conversation ++ [⟨Role.user, "bar"⟩]
      ∧ (onText (setUserWith ⟨none, none, none⟩ ["Q0"]) 7 "bar" none true).1.currentQuestionIndex
          = (setUserWith ⟨none, none, none⟩ ["Q0"]).currentQuestionIndex
      ∧ sends (onText (setUserWith ⟨none, none, none⟩ ["Q0"]) 7 "bar" none true).2 = [] :=
  onText_model_failure (setUserWith ⟨none, none, none⟩ ["Q0"]) 7 "bar" true (by decide)

/-! ## Persistence -/

/-- C6, as amended: for every state and every text update in which every call that the
handler awaits before the save returns normally (the completion request, if one is
made, returns a reply, and the Telegram send, if one is made, resolves), whichever
branch fires, the text handler calls `saveConversation` exactly once, as its last
effect, after every send of the turn, with the chat id of the update (which is then
`User.chatId`) and the whole conversation as it stands at the end of the handler. -/
theorem onText_saves_last (u : User) (c : ChatId) (t : String) (o : Option String)
    (d : Bool)
    (hreply : (u.currentQuestionIndex : Int) = (u.questions.length : Int) - 1 → o ≠ none)
    (hsend : (u.currentQuestionIndex : Int) ≤ (u.questions.length : Int) - 1 → d = true) :
    ∃ before, (onText u c t o d).2
          = before ++ [Effect.saveConversation c (onText u c t o d).1.conversation]
      ∧ saves before = []
      ∧ (saves (onText u c t o d).2).length = 1
      ∧ (onText u c t o d).1.chatId = some c := by
  rcases lt_trichotomy (u.currentQuestionIndex : Int) ((u.questions.length : Int) - 1)
    with h1 | h1 | h1
  · refine ⟨sendNextQuestion c u.questions (u.currentQuestionIndex + 1), ?_⟩
    have hlt : u.currentQuestionIndex + 1 < u.questions.length := by omega
    have hd : d = true := hsend (le_of_lt h1)
    subst hd
    simp [onText_advance u c t o true h1, saveConversation, sendNextQuestion, hlt, saves]
  · have hd : d = true := hsend (le_of_eq h1)
    subst hd
    cases o with
    | none => exact absurd rfl (hreply h1)
    | some r =>
      refine ⟨[Effect.chatCompletion u.openAiApiKey
          (requestMessages (some t) (u.conversation ++ [⟨Role.user, t⟩])),
        Effect.sendMessage c r], ?_⟩
      simp [onText_last_reply u c t r true h1, saves]
  · refine ⟨[], ?_⟩
    simp [onText_past u c t o d h1, saves]

theorem onText_saves_last_witness :
    ∃ before, (onText (setUserWith ⟨none, none, none⟩ ["Q0"]) 7 "bar" (some "r") true).2
          = before ++ [Effect.saveConversation 7
              (onText (setUserWith ⟨none, none, none⟩ ["Q0"]) 7 "bar"
                (some "r") true).1.conversation]
      ∧ saves before = []
      ∧ (saves (onText (setUserWith ⟨none, none, none⟩ ["Q0"]) 7 "bar"
            (some "r") true).2).length = 1
      ∧ (onText (setUserWith ⟨none, none, none⟩ ["Q0"]) 7 "bar" (some "r") true).1.chatId
          = some 7 :=
  onText_saves_last (setUserWith ⟨none, none, none⟩ ["Q0"]) 7 "bar" (some "r") true
    (fun _ => by decide) (fun _ => rfl)

/-- C6, as stated, fails: with one question, the cursor at `0` and a completion request
that rejects, the text handler makes the request and then stops, so `saveConversation`
is not called at all.  The same happens when the request returns but the awaited send
of the reply rejects, and when the awaited send of the next scripted question
rejects. -/
theorem onText_failure_skips_save :
    (onText (setUserWith ⟨none, none, none⟩ ["Q0"]) 7 "bar" none true).2
        = [Effect.chatCompletion none [⟨Role.user, "bar"⟩, ⟨Role.user, "bar"⟩]]
      ∧ saves (onText (setUserWith ⟨none, none, none⟩ ["Q0"]) 7 "bar" none true).2 = []
      ∧ ¬ (saves (onText (setUserWith ⟨none, none, none⟩ ["Q0"]) 7 "bar" none true).2).length
          = 1
      ∧ saves (onText (setUserWith ⟨none, none, none⟩ ["Q0"]) 7 "bar" (some "r") false).2
          = []
      ∧ (onText (setUser ⟨none, none, none⟩) 7 "yes" none false).2
          = [Effect.sendMessage 7 "What is your family size?"] := by
  decide

/-! ## The whole script -/

/-- C8: for a non-empty question list `Q0 .. Q_{N-1}`, a start followed by `N` texts from
the object of `setUser`, the completion request of the last text returning `r`, sends
exactly `greeting, Q0, .., Q_{N-1}, r` in that order, all to the chat of the updates;
the conversation begins with the system turn, which is its only system turn; the
completion request is made exactly once, and not before the `N`-th text. -/
theorem script_sends_in_order (env : Env) (qs : List String) (c : ChatId)
    (answers : List (String × Option String × Bool)) (t r : String) (d : Bool)
    (hne : qs ≠ []) (hlen : answers.length + 1 = qs.length) :
    sends (run (setUserWith env qs)
          (Event.start c :: textEvents c answers ++ [Event.text c t (some r) d])).2
        = (c, greeting) :: qs.map (fun q => (c, q)) ++ [(c, r)]
      ∧ (run (setUserWith env qs)
            (Event.start c :: textEvents c answers ++ [Event.text c t (some r) d])).1.conversation
          = startTurn :: userTurns (answers.map Prod.fst ++ [t]) ++ [⟨Role.assistant, r⟩]
      ∧ ((run (setUserWith env qs)
            (Event.start c :: textEvents c answers
              ++ [Event.text c t (some r) d])).1.conversation.filter
            (fun x => decide (x.role = Role.system))) = [startTurn]
      ∧ (modelCalls (run (setUserWith env qs)
            (Event.start c :: textEvents c answers ++ [Event.text c t (some r) d])).2).length = 1
      ∧ modelCalls (run (setUserWith env qs) (Event.start c :: textEvents c answers)).2
          = [] := by
  have _ := hne
  obtain ⟨h1, h2, h3, h4⟩ := run_script env qs c answers t r d hlen
  refine ⟨h2, h3, ?_, ?_, h1⟩
  · rw [h3]
    have hu : ∀ l : List String,
        (userTurns l).filter (fun x => decide (x.role = Role.system)) = [] := by
      intro l
      induction l with
      | nil => rfl
      | cons a l ih =>
        simp only [userTurns, List.map_cons] at ih ⊢
        rw [List.filter_cons_of_neg (by simp), ih]
    rw [List.cons_append, List.filter_cons_of_pos (by simp [startTurn]), List.filter_append,
      hu]
    simp
  · rw [h4]; rfl

theorem script_sends_in_order_witness :
    sends (run (setUserWith ⟨none, none, none⟩ ["Q0", "Q1"])
          (Event.start 7 :: textEvents 7 [("foo", none, true)] ++ [Event.text 7 "bar" (some "r") true])).2
        = (7, greeting) :: ["Q0", "Q1"].map (fun q => ((7 : ChatId), q)) ++ [(7, "r")]
      ∧ (run (setUserWith ⟨none, none, none⟩ ["Q0", "Q1"])
            (Event.start 7 :: textEvents 7 [("foo", none, true)]
              ++ [Event.text 7 "bar" (some "r") true])).1.conversation
          = startTurn :: userTurns ([("foo", (none : Option String), true)].map Prod.fst ++ ["bar"])
              ++ [⟨Role.assistant, "r"⟩]
      ∧ ((run (setUserWith ⟨none, none, none⟩ ["Q0", "Q1"])
            (Event.start 7 :: textEvents 7 [("foo", none, true)]
              ++ [Event.text 7 "bar" (some "r") true])).1.conversation.filter
            (fun x => decide (x.role = Role.system))) = [startTurn]
      ∧ (modelCalls (run (setUserWith ⟨none, none, none⟩ ["Q0", "Q1"])
            (Event.start 7 :: textEvents 7 [("foo", none, true)]
              ++ [Event.text 7 "bar" (some "r") true])).2).length = 1
      ∧ modelCalls (run (setUserWith ⟨none, none, none⟩ ["Q0", "Q1"])
            (Event.start 7 :: textEvents 7 [("foo", none, true)])).2 = [] :=
  script_sends_in_order ⟨none, none, none⟩ ["Q0", "Q1"] 7 [("foo", none, true)] "bar" "r" true
    (by decide) (by decide)

/-- C5: in Scenario A (questions `[Q0, Q1]`, a start, then the texts `foo` and `bar`)
the single completion request carries four messages, the system turn, `user:foo`,
`user:bar` and `user:bar` once more, because the text handler has already pushed the
answer onto the conversation when `interactWithChatGpt` appends `userInput` to it; the
list is not `[system, user:foo, user:bar]`. -/
theorem scenarioA_request_repeats_last_answer :
    modelCalls (run (setUserWith ⟨none, none, none⟩ ["Q0", "Q1"])
        [Event.start 7, Event.text 7 "foo" none true, Event.text 7 "bar" (some "r") true]).2
        = [[startTurn, ⟨Role.user, "foo"⟩, ⟨Role.user, "bar"⟩, ⟨Role.user, "bar"⟩]]
      ∧ modelCalls (run (setUserWith ⟨none, none, none⟩ ["Q0", "Q1"])
          [Event.start 7, Event.text 7 "foo" none true, Event.text 7 "bar" (some "r") true]).2
        ≠ [[startTurn, ⟨Role.user, "foo"⟩, ⟨Role.user, "bar"⟩]] := by
  decide

/-! ## Several chats on the one shared object -/

/-- C9: two runs with the same events for chat `1` (a start and the text `yes`), the
second with a text of chat `2` in between, send different questions to chat `1` and
store different conversations under chat `1`; the one stored in the second run holds
the text written in chat `2`. -/
theorem shared_user_crosses_chats :
    eventsOf 1 [Event.start 1, Event.text 1 "yes" none true]
        = eventsOf 1 [Event.start 1, Event.text 2 "hello" none true, Event.text 1 "yes" none true]
      ∧ sendsTo 1 (run (setUser ⟨none, none, none⟩)
            [Event.start 1, Event.text 1 "yes" none true]).2
          = [greeting, "Are you looking for a health insurance plan?",
              "What is your family size?"]
      ∧ sendsTo 1 (run (setUser ⟨none, none, none⟩)
            [Event.start 1, Event.text 2 "hello" none true, Event.text 1 "yes" none true]).2
          = [greeting, "Are you looking for a health insurance plan?",
              "What is your household income?"]
      ∧ savedUnder 1 (run (setUser ⟨none, none, none⟩)
            [Event.start 1, Event.text 1 "yes" none true]).2
          = [[startTurn, ⟨Role.user, "yes"⟩]]
      ∧ savedUnder 1 (run (setUser ⟨none, none, none⟩)
            [Event.start 1, Event.text 2 "hello" none true, Event.text 1 "yes" none true]).2
          = [[startTurn, ⟨Role.user, "hello"⟩, ⟨Role.user, "yes"⟩]] := by
  decide

/-! ## No text is dropped -/

/-- C10, as amended: for a non-empty question list and every state `u` reached from the
object of `setUser`, the text handler either sends the next scripted question (cursor
below `questions.length - 1`), or the cursor is at `questions.length - 1` and the
handler makes one completion request, sends the reply when the request returns one and
sends nothing when the request rejects; in that case the cursor stays at
`questions.length - 1` through every later sequence of events, so every further text
makes the request again. -/
theorem no_text_dropped (env : Env) (qs : List String) (es : List Event) (u : User)
    (c : ChatId) (t : String) (o : Option String) (d : Bool)
    (hne : qs ≠ []) (hu : u = (run (setUserWith env qs) es).1) :
    u.questions = qs
      ∧ (((u.currentQuestionIndex : Int) < (qs.length : Int) - 1
          ∧ ∃ q, qs[u.currentQuestionIndex + 1]? = some q
              ∧ sends (onText u c t o d).2 = [(c, q)])
        ∨ ((u.currentQuestionIndex : Int) = (qs.length : Int) - 1
          ∧ (modelCalls (onText u c t o d).2).length = 1
          ∧ (∀ r, o = some r → sends (onText u c t o d).2 = [(c, r)])
          ∧ (o = none → sends (onText u c t o d).2 = [])
          ∧ (onText u c t o d).1.currentQuestionIndex = u.currentQuestionIndex
          ∧ ∀ later : List Event,
              (run u later).1.currentQuestionIndex = u.currentQuestionIndex)) := by
  have hq : u.questions = qs := by rw [hu]; exact (run_fields (setUserWith env qs) es).1
  have hpos : 0 < qs.length := List.length_pos.mpr hne
  have hlt : u.currentQuestionIndex < qs.length := by
    rw [hu]
    exact run_index_lt (setUserWith env qs) es (by simpa [setUserWith] using hpos)
  refine ⟨hq, ?_⟩
  rcases Nat.lt_or_ge (u.currentQuestionIndex + 1) qs.length with h | h
  · left
    have hadv : u.currentQuestionIndex + 1 < u.questions.length := by rw [hq]; exact h
    obtain ⟨hs, _⟩ := onText_advance_calls u c t o d hadv
    refine ⟨by omega, u.questions[u.currentQuestionIndex + 1], ?_, hs⟩
    rw [← hq]
    simp [hadv]
  · right
    have hlast : (u.currentQuestionIndex : Int) = (u.questions.length : Int) - 1 := by
      rw [hq]; omega
    refine ⟨by omega, ?_, ?_, ?_, ?_, fun later => run_index_stays u later hlast⟩
    · cases o with
      | none => simp [onText_last_failure u c t d hlast, modelCalls]
      | some r =>
        rw [onText_last_reply u c t r d hlast]
        cases d <;> simp [modelCalls]
    · intro r hr
      subst hr
      rw [onText_last_reply u c t r d hlast]
      cases d <;> simp [sends]
    · intro ho
      subst ho
      simp [onText_last_failure u c t d hlast, sends]
    · cases o with
      | none => simp [onText_last_failure u c t d hlast]
      | some r => simp [onText_last_reply u c t r d hlast]

theorem no_text_dropped_witness :
    (run (setUserWith ⟨none, none, none⟩ ["Q0", "Q1"])
        [Event.start 7, Event.text 7 "foo" none true]).1.questions = ["Q0", "Q1"]
      ∧ ((((run (setUserWith ⟨none, none, none⟩ ["Q0", "Q1"])
              [Event.start 7, Event.text 7 "foo" none true]).1.currentQuestionIndex : Int)
            < ((["Q0", "Q1"] : List String).length : Int) - 1
          ∧ ∃ q, (["Q0", "Q1"] : List String)[(run (setUserWith ⟨none, none, none⟩ ["Q0", "Q1"])
                [Event.start 7, Event.text 7 "foo" none true]).1.currentQuestionIndex + 1]?
                = some q
              ∧ sends (onText (run (setUserWith ⟨none, none, none⟩ ["Q0", "Q1"])
                  [Event.start 7, Event.text 7 "foo" none true]).1 7 "bar"
                  (some "r") true).2 = [(7, q)])
        ∨ (((run (setUserWith ⟨none, none, none⟩ ["Q0", "Q1"])
              [Event.start 7, Event.text 7 "foo" none true]).1.currentQuestionIndex : Int)
            = ((["Q0", "Q1"] : List String).length : Int) - 1
          ∧ (modelCalls (onText (run (setUserWith ⟨none, none, none⟩ ["Q0", "Q1"])
                [Event.start 7, Event.text 7 "foo" none true]).1 7 "bar"
                (some "r") true).2).length = 1
          ∧ (∀ r, some "r" = some r →
              sends (onText (run (setUserWith ⟨none, none, none⟩ ["Q0", "Q1"])
                [Event.start 7, Event.text 7 "foo" none true]).1 7 "bar"
                (some "r") true).2 = [(7, r)])
          ∧ (some "r" = none →
              sends (onText (run (setUserWith ⟨none, none, none⟩ ["Q0", "Q1"])
                [Event.start 7, Event.text 7 "foo" none true]).1 7 "bar"
                (some "r") true).2 = [])
          ∧ (onText (run (setUserWith ⟨none, none, none⟩ ["Q0", "Q1"])
                [Event.start 7, Event.text 7 "foo" none true]).1 7 "bar"
                (some "r") true).1.currentQuestionIndex
              = (run (setUserWith ⟨none, none, none⟩ ["Q0", "Q1"])
                [Event.start 7, Event.text 7 "foo" none true]).1.currentQuestionIndex
          ∧ ∀ later : List Event,
              (run (run (setUserWith ⟨none, none, none⟩ ["Q0", "Q1"])
                [Event.start 7, Event.text 7 "foo" none true]).1 later).1.currentQuestionIndex
              = (run (setUserWith ⟨none, none, none⟩ ["Q0", "Q1"])
                [Event.start 7, Event.text 7 "foo" none true]).1.currentQuestionIndex)) :=
  no_text_dropped ⟨none, none, none⟩ ["Q0", "Q1"]
    [Event.start 7, Event.text 7 "foo" none true] _ 7 "bar" (some "r") true (by decide) rfl

/-- C10, as stated, fails: with the questions `[Q0, Q1]`, after a start and the text
`foo` the cursor is at the last question; when the completion request of the next text
rejects, the handler has made the request but sends neither a scripted question nor a
reply, and does not save. -/
theorem failed_request_sends_nothing :
    (run (setUserWith ⟨none, none, none⟩ ["Q0", "Q1"])
        [Event.start 7, Event.text 7 "foo" none true]).1.currentQuestionIndex = 1
      ∧ (onText (run (setUserWith ⟨none, none, none⟩ ["Q0", "Q1"])
          [Event.start 7, Event.text 7 "foo" none true]).1 7 "bar" none true).2
        = [Effect.chatCompletion none
            [startTurn, ⟨Role.user, "foo"⟩, ⟨Role.user, "bar"⟩, ⟨Role.user, "bar"⟩]]
      ∧ sends (onText (run (setUserWith ⟨none, none, none⟩ ["Q0", "Q1"])
          [Event.start 7, Event.text 7 "foo" none true]).1 7 "bar" none true).2 = []
      ∧ ¬ (∃ m, sends (onText (run (setUserWith ⟨none, none, none⟩ ["Q0", "Q1"])
          [Event.start 7, Event.text 7 "foo" none true]).1 7 "bar" none true).2
            = [((7 : ChatId), m)]) := by
  refine ⟨by decide, by decide, by decide, ?_⟩
  rintro ⟨m, hm⟩
  have h0 : sends (onText (run (setUserWith ⟨none, none, none⟩ ["Q0", "Q1"])
      [Event.start 7, Event.text 7 "foo" none true]).1 7 "bar" none true).2 = [] := by
    decide
  rw [h0] at hm
  exact List.noConfusion hm

end TelegramBot
